import Mathlib

/-!
Shallow embedding of the gsnake terminal Snake game (src/gsnake.go) and
proofs about its update engine, food spawning, direction handling and
reachable-state invariants.

Modelling conventions:
* Go `int` is `Int`; `Point`, `Snake`, `Game` mirror the Go structs.
* `rand.Intn` draws are modelled by a stream `r : Nat → Nat × Nat` of raw
  draws, one pair per loop iteration of `spawnFood`; `rand.Intn n` applied
  to a raw draw `d` is `d % n` when `n > 0` and a panic (`none`) otherwise,
  exactly matching Go's contract that `Intn` panics for `n ≤ 0`.
* The unbounded retry loop of `spawnFood` is given fuel; `none` means the
  loop has not terminated within the given fuel (or a panic occurred).
* `update` returns `Option Game`: `none` models a panic (empty body) or a
  non-terminating `spawnFood` call; `some` is normal return.
-/

namespace GSnake

structure Point where
  x : Int
  y : Int
deriving DecidableEq, Repr

structure Snake where
  body : List Point
  direction : Point
deriving DecidableEq, Repr

structure Game where
  width : Int
  height : Int
  snake : Snake
  food : Point
  score : Int
  gameOver : Bool
  quit : Bool
deriving DecidableEq, Repr

/-- The stream of raw random draws consumed by `spawnFood`, one pair
(for the x and y calls to `rand.Intn`) per loop iteration. -/
def RandStream : Type := Nat → Nat × Nat

/-- Go's `rand.Intn n` on a raw draw `d`: uniform residue for `n > 0`,
panic (modelled as `none`) for `n ≤ 0`. -/
def intn (n : Int) (d : Nat) : Option Int :=
  if n ≤ 0 then none else some ((d : Int) % n)

/-- The body-occupancy scan of `spawnFood` and the self-collision loop of
`update`: does any segment have the same coordinates as `p`? -/
def occupies (body : List Point) (p : Point) : Bool :=
  body.any fun segment => segment.x == p.x && segment.y == p.y

/-- The retry loop of `Game.spawnFood`: at iteration `k` sample the
candidate cell `(Intn (width-2) + 1, Intn (height-2) + 1)` from draw
`r k`; retry while it hits the snake body. `fuel` bounds the number of
iterations we unfold; the Go loop itself is unbounded. -/
def spawnFoodAux (g : Game) (r : RandStream) : Nat → Nat → Option Point
  | 0, _ => none
  | fuel + 1, k =>
    match intn (g.width - 2) (r k).1, intn (g.height - 2) (r k).2 with
    | some dx, some dy =>
      let cand : Point := ⟨dx + 1, dy + 1⟩
      if occupies g.snake.body cand then spawnFoodAux g r fuel (k + 1)
      else some cand
    | _, _ => none

/-- `Game.spawnFood`: run the retry loop and store the found cell in
`food`. -/
def spawnFood (g : Game) (r : RandStream) (fuel : Nat) : Option Game :=
  (spawnFoodAux g r fuel 0).map fun p => { g with food := p }

/-- `Game.update`: one tick of the game. `none` models a Go panic
(empty body) or a `spawnFood` call that did not finish within `fuel`. -/
def update (g : Game) (r : RandStream) (fuel : Nat) : Option Game :=
  if g.gameOver || g.quit then some g
  else
    match g.snake.body with
    | [] => none
    | head :: _ =>
      let newHead : Point :=
        ⟨head.x + g.snake.direction.x, head.y + g.snake.direction.y⟩
      if newHead.x ≤ 0 ∨ g.width - 1 ≤ newHead.x ∨
          newHead.y ≤ 0 ∨ g.height - 1 ≤ newHead.y then
        some { g with gameOver := true }
      else if occupies g.snake.body newHead then
        some { g with gameOver := true }
      else
        let g1 : Game :=
          { g with snake := { g.snake with body := newHead :: g.snake.body } }
        if newHead.x = g.food.x ∧ newHead.y = g.food.y then
          spawnFood { g1 with score := g1.score + 1 } r fuel
        else
          some { g1 with
                 snake := { g1.snake with body := g1.snake.body.dropLast } }

/-- `Game.init`: fixed 40×20 board, 3-segment snake heading +x, fresh
food, zeroed score and cleared flags. The Go code calls `spawnFood`
before resetting `score`/`gameOver`/`quit`; `spawnFood` reads none of
those fields, so the order is preserved faithfully here. -/
def gameInit (g : Game) (r : RandStream) (fuel : Nat) : Option Game :=
  let g1 : Game :=
    { g with
      width := 40
      height := 20
      snake :=
        { body := [⟨10, 10⟩, ⟨9, 10⟩, ⟨8, 10⟩]
          direction := ⟨1, 0⟩ } }
  (spawnFood g1 r fuel).map fun g2 =>
    { g2 with score := 0, gameOver := false, quit := false }

/-- `Game.changeDirection`: ignore a request that is the exact opposite
of the current direction, otherwise install it. -/
def changeDirection (g : Game) (dx dy : Int) : Game :=
  if g.snake.direction.x = -dx ∧ g.snake.direction.y = -dy then g
  else { g with snake := { g.snake with direction := ⟨dx, dy⟩ } }

/-- One dispatch step of `Game.handleInput` on a received byte `key`.
For byte 27 (escape) the two follow-up bytes read from stdin are `seq`.
Arrow keys map to direction deltas, q/Q sets `quit`, r/R restarts when
`gameOver`; everything else is ignored. -/
def handleKey (g : Game) (key : Nat) (seq : Nat × Nat) (r : RandStream)
    (fuel : Nat) : Option Game :=
  if key = 27 then
    if seq.1 = 91 then
      if seq.2 = 65 then some (changeDirection g 0 (-1))
      else if seq.2 = 66 then some (changeDirection g 0 1)
      else if seq.2 = 67 then some (changeDirection g 1 0)
      else if seq.2 = 68 then some (changeDirection g (-1) 0)
      else some g
    else some g
  else if key = 113 ∨ key = 81 then some { g with quit := true }
  else if key = 114 ∨ key = 82 then
    if g.gameOver then gameInit g r fuel else some g
  else some g

/-- A single mutation of the shared `Game` by either concurrent activity:
a tick of `update`, one input byte dispatched by `handleInput`, or a
direct `spawnFood` call. -/
inductive Step : Game → Game → Prop
  | update (g g' : Game) (r : RandStream) (fuel : Nat) :
      update g r fuel = some g' → Step g g'
  | key (g g' : Game) (k : Nat) (s : Nat × Nat) (r : RandStream) (fuel : Nat) :
      handleKey g k s r fuel = some g' → Step g g'
  | spawn (g g' : Game) (r : RandStream) (fuel : Nat) :
      spawnFood g r fuel = some g' → Step g g'

/-- States reachable from a completed `init()` by any interleaving of
ticks and input handling. -/
inductive Reachable : Game → Prop
  | start (g0 g : Game) (r : RandStream) (fuel : Nat) :
      gameInit g0 r fuel = some g → Reachable g
  | step (g g' : Game) : Reachable g → Step g g' → Reachable g'

/-- A cell strictly inside the 1-cell border of a `w × h` board. -/
def interiorCell (w h : Int) (p : Point) : Prop :=
  1 ≤ p.x ∧ p.x ≤ w - 2 ∧ 1 ≤ p.y ∧ p.y ≤ h - 2

/-- The safety invariant of claim C10: the body has at least 3 segments
and every segment as well as the food is strictly inside the border. -/
def Inv (g : Game) : Prop :=
  3 ≤ g.snake.body.length ∧
    (∀ p ∈ g.snake.body, interiorCell g.width g.height p) ∧
    interiorCell g.width g.height g.food

/-- The four unit direction vectors. -/
def unitDir (p : Point) : Prop :=
  p = ⟨1, 0⟩ ∨ p = ⟨-1, 0⟩ ∨ p = ⟨0, 1⟩ ∨ p = ⟨0, -1⟩

/-- The exact reverse of a direction vector. -/
def reverseOf (p : Point) : Point := ⟨-p.x, -p.y⟩

/-- Apply a list of direction-change requests in order (the inputs
arriving between two ticks). -/
def applyDirs (g : Game) (ds : List (Int × Int)) : Game :=
  ds.foldl (fun h d => changeDirection h d.1 d.2) g

/-- An all-zero draw stream, used for concrete evaluations. -/
def zeroStream : RandStream := fun _ => (0, 0)

/-- A throwaway pre-`init` game value. -/
def blankGame : Game :=
  { width := 0, height := 0, snake := { body := [], direction := ⟨0, 0⟩ }
    food := ⟨0, 0⟩, score := 0, gameOver := false, quit := false }

/-- The state produced by `init()` when the first food draw is `(0, 0)`:
food lands on `(1, 1)`. -/
def gameA : Game :=
  { width := 40, height := 20
    snake := { body := [⟨10, 10⟩, ⟨9, 10⟩, ⟨8, 10⟩], direction := ⟨1, 0⟩ }
    food := ⟨1, 1⟩, score := 0, gameOver := false, quit := false }

/-- `gameA` after one tick: the head advances to `(11, 10)`. -/
def gameB : Game :=
  { gameA with
    snake := { body := [⟨11, 10⟩, ⟨10, 10⟩, ⟨9, 10⟩], direction := ⟨1, 0⟩ } }

/-- A state whose snake sits next to the left wall heading into it. -/
def gameC : Game :=
  { gameA with
    snake := { body := [⟨1, 1⟩, ⟨2, 1⟩, ⟨3, 1⟩], direction := ⟨-1, 0⟩ } }

/-- The candidate cell sampled at loop iteration `k` of `spawnFood`
(well-defined whenever the board is at least 3×3). -/
def candAt (g : Game) (r : RandStream) (k : Nat) : Point :=
  ⟨((r k).1 : Int) % (g.width - 2) + 1, ((r k).2 : Int) % (g.height - 2) + 1⟩

/-- A draw stream whose first `n` candidates land on `(1, 1)` and whose
later candidates land one cell to the right. -/
def stallStream (n : Nat) : RandStream := fun k => if k < n then (0, 0) else (1, 0)

/-- A tiny board whose snake occupies exactly the cell `(1, 1)`. -/
def stallGame : Game :=
  { width := 4, height := 4
    snake := { body := [⟨1, 1⟩], direction := ⟨1, 0⟩ }
    food := ⟨2, 2⟩, score := 0, gameOver := false, quit := false }

/-! ### Helper lemmas -/

lemma intn_bound {n : Int} {d : Nat} {v : Int} (h : intn n d = some v) :
    0 ≤ v ∧ v ≤ n - 2 + 1 := by
  unfold intn at h
  split at h
  · exact absurd h (by simp)
  · rename_i hn
    push_neg at hn
    injection h with h
    subst h
    refine ⟨Int.emod_nonneg _ (by omega), ?_⟩
    have := Int.emod_lt_of_pos (d : Int) hn
    omega

lemma intn_of_pos {n : Int} (hn : 0 < n) (d : Nat) :
    intn n d = some ((d : Int) % n) := by
  unfold intn
  rw [if_neg (by omega)]

lemma ne_of_not_occupies {body : List Point} {p : Point}
    (h : occupies body p = false) : ∀ s ∈ body, s ≠ p := by
  intro s hs heq
  subst heq
  unfold occupies at h
  rw [List.any_eq_false] at h
  exact absurd (by simp) (h s hs)

/-- Soundness of the retry loop: any returned cell is unoccupied and
strictly inside the border. -/
lemma spawnFoodAux_sound {g : Game} {r : RandStream} :
    ∀ {fuel k : Nat} {p : Point}, spawnFoodAux g r fuel k = some p →
      occupies g.snake.body p = false ∧
        1 ≤ p.x ∧ p.x ≤ g.width - 2 ∧ 1 ≤ p.y ∧ p.y ≤ g.height - 2 := by
  intro fuel
  induction fuel with
  | zero => intro k p h; simp [spawnFoodAux] at h
  | succ n ih =>
    intro k p h
    unfold spawnFoodAux at h
    cases hx : intn (g.width - 2) (r k).1 with
    | none => rw [hx] at h; exact absurd h (by simp)
    | some dx =>
      cases hy : intn (g.height - 2) (r k).2 with
      | none => rw [hx, hy] at h; exact absurd h (by simp)
      | some dy =>
        rw [hx, hy] at h
        simp only at h
        split at h
        · exact ih h
        · rename_i hocc
          injection h with h
          subst h
          have bx := intn_bound hx
          have by' := intn_bound hy
          refine ⟨by simpa using hocc, ?_, ?_, ?_, ?_⟩ <;>
            simp only [] <;> omega

lemma spawnFood_sound {g g' : Game} {r : RandStream} {fuel : Nat}
    (h : spawnFood g r fuel = some g') :
    g'.width = g.width ∧ g'.height = g.height ∧ g'.snake = g.snake ∧
      g'.score = g.score ∧ g'.gameOver = g.gameOver ∧ g'.quit = g.quit ∧
      occupies g.snake.body g'.food = false ∧
      1 ≤ g'.food.x ∧ g'.food.x ≤ g.width - 2 ∧
      1 ≤ g'.food.y ∧ g'.food.y ≤ g.height - 2 := by
  unfold spawnFood at h
  rw [Option.map_eq_some'] at h
  obtain ⟨p, hp, rfl⟩ := h
  have := spawnFoodAux_sound hp
  exact ⟨rfl, rfl, rfl, rfl, rfl, rfl, this.1, this.2.1, this.2.2.1,
    this.2.2.2.1, this.2.2.2.2⟩

/-! ### Claim theorems -/

/-- C8: with `gameOver = true` or `quit = true`, `update` returns the
state completely unchanged — every field identical. -/
theorem update_noop_when_over_or_quit (g : Game) (r : RandStream) (fuel : Nat)
    (h : g.gameOver = true ∨ g.quit = true) :
    update g r fuel = some g := by
  unfold update
  rcases h with h | h <;> simp [h]

theorem update_noop_when_over_or_quit_witness :
    update { gameA with quit := true } zeroStream 0 =
      some { gameA with quit := true } :=
  update_noop_when_over_or_quit _ zeroStream 0 (Or.inr rfl)

/-- C4: `changeDirection` ignores a request that is the exact opposite of
the current direction (the whole state, hence `snake.direction`, is
unchanged) and otherwise installs the requested delta. -/
theorem changeDirection_reverse_ignored (g : Game) (dx dy : Int) :
    (g.snake.direction.x = -dx ∧ g.snake.direction.y = -dy →
        changeDirection g dx dy = g) ∧
    (¬(g.snake.direction.x = -dx ∧ g.snake.direction.y = -dy) →
        changeDirection g dx dy =
          { g with snake := { g.snake with direction := ⟨dx, dy⟩ } }) := by
  constructor <;> intro h <;> simp [changeDirection, h]

theorem changeDirection_reverse_ignored_witness :
    changeDirection gameA (-1) 0 = gameA ∧
      changeDirection gameA 0 1 =
        { gameA with snake := { gameA.snake with direction := ⟨0, 1⟩ } } :=
  ⟨(changeDirection_reverse_ignored gameA (-1) 0).1 (by decide),
    (changeDirection_reverse_ignored gameA 0 1).2 (by decide)⟩

/-- C3: in a live state, a new head on or beyond the border (x ≤ 0,
x ≥ width-1, y ≤ 0 or y ≥ height-1) sets `gameOver` in the same tick and
leaves body, food and score untouched. -/
theorem update_border_sets_gameOver (g : Game) (r : RandStream) (fuel : Nat)
    (hd : Point) (tl : List Point)
    (hov : g.gameOver = false) (hq : g.quit = false)
    (hbody : g.snake.body = hd :: tl)
    (hborder : hd.x + g.snake.direction.x ≤ 0 ∨
        g.width - 1 ≤ hd.x + g.snake.direction.x ∨
        hd.y + g.snake.direction.y ≤ 0 ∨
        g.height - 1 ≤ hd.y + g.snake.direction.y) :
    update g r fuel = some { g with gameOver := true } := by
  simp only [update, hov, hq, hbody]
  rw [if_pos hborder]
  simp

theorem update_border_sets_gameOver_witness :
    update gameC zeroStream 0 = some { gameC with gameOver := true } := by
  have h := update_border_sets_gameOver gameC zeroStream 0
    ⟨1, 1⟩ [⟨2, 1⟩, ⟨3, 1⟩] rfl rfl rfl (by decide)
  exact h

/-- C2: in a live state whose new head is strictly inside the border, the
self-collision scan runs over the pre-move body (tail included); a hit
sets `gameOver` and leaves body, food and score untouched. -/
theorem update_self_collision_sets_gameOver (g : Game) (r : RandStream)
    (fuel : Nat) (hd : Point) (tl : List Point)
    (hov : g.gameOver = false) (hq : g.quit = false)
    (hbody : g.snake.body = hd :: tl)
    (hinside : ¬(hd.x + g.snake.direction.x ≤ 0 ∨
        g.width - 1 ≤ hd.x + g.snake.direction.x ∨
        hd.y + g.snake.direction.y ≤ 0 ∨
        g.height - 1 ≤ hd.y + g.snake.direction.y))
    (hhit : occupies g.snake.body
        ⟨hd.x + g.snake.direction.x, hd.y + g.snake.direction.y⟩ = true) :
    update g r fuel = some { g with gameOver := true } := by
  rw [hbody] at hhit
  simp only [update, hov, hq, hbody]
  rw [if_neg hinside, if_pos hhit]
  simp

theorem update_self_collision_sets_gameOver_witness :
    update { gameB with snake := { gameB.snake with direction := ⟨-1, 0⟩ } }
        zeroStream 0 =
      some { gameB with
             snake := { gameB.snake with direction := ⟨-1, 0⟩ }
             gameOver := true } := by
  have h := update_self_collision_sets_gameOver
    { gameB with snake := { gameB.snake with direction := ⟨-1, 0⟩ } }
    zeroStream 0 ⟨11, 10⟩ [⟨10, 10⟩, ⟨9, 10⟩] rfl rfl rfl
    (by decide) (by decide)
  exact h

/-- C6: any state returned by `spawnFood` carries a food cell that misses
every current body segment and lies strictly inside the 1-cell border. -/
theorem spawnFood_fresh_interior (g g' : Game) (r : RandStream) (fuel : Nat)
    (h : spawnFood g r fuel = some g') :
    (∀ s ∈ g'.snake.body, s ≠ g'.food) ∧
      1 ≤ g'.food.x ∧ g'.food.x ≤ g'.width - 2 ∧
      1 ≤ g'.food.y ∧ g'.food.y ≤ g'.height - 2 := by
  obtain ⟨hw, hh, hsn, -, -, -, hocc, h1, h2, h3, h4⟩ := spawnFood_sound h
  refine ⟨?_, by omega, by omega, by omega, by omega⟩
  intro s hsmem
  exact ne_of_not_occupies hocc s (by rw [← hsn]; exact hsmem)

theorem spawnFood_fresh_interior_witness :
    (∀ s ∈ gameA.snake.body, s ≠ gameA.food) ∧
      1 ≤ gameA.food.x ∧ gameA.food.x ≤ gameA.width - 2 ∧
      1 ≤ gameA.food.y ∧ gameA.food.y ≤ gameA.height - 2 :=
  spawnFood_fresh_interior gameA gameA zeroStream 1 (by decide)

/-- C1: a live tick whose new head is inside the border and misses the
pre-move body grows the body by one segment and the score by one exactly
when the new head is the food cell; otherwise the new head is prepended,
the last segment dropped, and the length is unchanged. -/
theorem update_move_growth (g g' : Game) (r : RandStream) (fuel : Nat)
    (hd : Point) (tl : List Point)
    (hov : g.gameOver = false) (hq : g.quit = false)
    (hbody : g.snake.body = hd :: tl)
    (hinside : ¬(hd.x + g.snake.direction.x ≤ 0 ∨
        g.width - 1 ≤ hd.x + g.snake.direction.x ∨
        hd.y + g.snake.direction.y ≤ 0 ∨
        g.height - 1 ≤ hd.y + g.snake.direction.y))
    (hfree : occupies g.snake.body
        ⟨hd.x + g.snake.direction.x, hd.y + g.snake.direction.y⟩ = false)
    (hup : update g r fuel = some g') :
    ((hd.x + g.snake.direction.x = g.food.x ∧
        hd.y + g.snake.direction.y = g.food.y) →
      g'.snake.body.length = g.snake.body.length + 1 ∧
        g'.score = g.score + 1) ∧
    (¬(hd.x + g.snake.direction.x = g.food.x ∧
        hd.y + g.snake.direction.y = g.food.y) →
      g'.snake.body.length = g.snake.body.length ∧
        g'.snake.body =
          (⟨hd.x + g.snake.direction.x, hd.y + g.snake.direction.y⟩ ::
            (hd :: tl)).dropLast) := by
  rw [hbody] at hfree
  simp only [update, hov, hq, hbody] at hup
  rw [if_neg (show ¬((false || false) = true) by simp), if_neg hinside] at hup
  split at hup
  · rename_i hocc
    rw [hfree] at hocc
    exact absurd hocc (by simp)
  · by_cases hf : hd.x + g.snake.direction.x = g.food.x ∧
        hd.y + g.snake.direction.y = g.food.y
    · rw [if_pos hf] at hup
      obtain ⟨-, -, hsn, hsc, -, -, -⟩ := spawnFood_sound hup
      refine ⟨fun _ => ⟨?_, ?_⟩, fun hnf => absurd hf hnf⟩
      · rw [hsn, hbody]; simp
      · rw [hsc]
    · rw [if_neg hf] at hup
      injection hup with hup
      subst hup
      refine ⟨fun hf2 => absurd hf2 hf, fun _ => ⟨?_, rfl⟩⟩
      simp [hbody]

theorem update_move_growth_witness :
    ((⟨10, 10⟩ : Point).x + gameA.snake.direction.x = gameA.food.x ∧
        (⟨10, 10⟩ : Point).y + gameA.snake.direction.y = gameA.food.y →
      gameB.snake.body.length = gameA.snake.body.length + 1 ∧
        gameB.score = gameA.score + 1) ∧
    (¬((⟨10, 10⟩ : Point).x + gameA.snake.direction.x = gameA.food.x ∧
        (⟨10, 10⟩ : Point).y + gameA.snake.direction.y = gameA.food.y) →
      gameB.snake.body.length = gameA.snake.body.length ∧
        gameB.snake.body =
          ((⟨(⟨10, 10⟩ : Point).x + gameA.snake.direction.x,
              (⟨10, 10⟩ : Point).y + gameA.snake.direction.y⟩ : Point) ::
            ((⟨10, 10⟩ : Point) :: [⟨9, 10⟩, ⟨8, 10⟩])).dropLast) :=
  update_move_growth gameA gameB zeroStream 0 ⟨10, 10⟩ [⟨9, 10⟩, ⟨8, 10⟩]
    rfl rfl rfl (by decide) (by decide) (by decide)

lemma spawnFoodAux_succ_pos {g : Game} (r : RandStream)
    (hw : 0 < g.width - 2) (hh : 0 < g.height - 2) (fuel k : Nat) :
    spawnFoodAux g r (fuel + 1) k =
      if occupies g.snake.body (candAt g r k) then spawnFoodAux g r fuel (k + 1)
      else some (candAt g r k) := by
  conv_lhs => unfold spawnFoodAux
  rw [intn_of_pos hw, intn_of_pos hh]
  rfl

lemma spawnFoodAux_finds {g : Game} {r : RandStream}
    (hw : 0 < g.width - 2) (hh : 0 < g.height - 2) :
    ∀ n k : Nat, occupies g.snake.body (candAt g r (k + n)) = false →
      ∃ p, spawnFoodAux g r (n + 1) k = some p := by
  intro n
  induction n with
  | zero =>
    intro k hfree
    rw [spawnFoodAux_succ_pos r hw hh]
    rw [Nat.add_zero] at hfree
    rw [hfree]
    exact ⟨_, rfl⟩
  | succ m ih =>
    intro k hfree
    rw [spawnFoodAux_succ_pos r hw hh]
    by_cases hocc : occupies g.snake.body (candAt g r k) = true
    · rw [hocc]
      simp only [if_true]
      exact ih (k + 1) (by rw [show k + 1 + m = k + (m + 1) by omega]; exact hfree)
    · rw [Bool.not_eq_true] at hocc
      rw [hocc]
      exact ⟨_, rfl⟩

lemma stallStream_cand_before {n k : Nat} (hk : k < n) :
    candAt stallGame (stallStream n) k = ⟨1, 1⟩ := by
  simp [candAt, stallStream, stallGame, hk]

lemma stallStream_stalls (n : Nat) :
    ∀ fuel k, k + fuel ≤ n →
      spawnFoodAux stallGame (stallStream n) fuel k = none := by
  intro fuel
  induction fuel with
  | zero => intro k _; rfl
  | succ m ih =>
    intro k hk
    rw [spawnFoodAux_succ_pos (stallStream n) (by decide) (by decide)]
    rw [stallStream_cand_before (by omega)]
    rw [show occupies stallGame.snake.body ⟨1, 1⟩ = true by decide]
    simp only [if_true]
    exact ih (k + 1) (by omega)

/-- C7: whenever the draw stream yields at least one unoccupied interior
candidate (the almost-sure event under uniform sampling, given a free
interior cell), the retry loop of `spawnFood` terminates with that much
fuel; and no fixed fuel bound suffices for all streams, i.e. the loop has
no imposed iteration bound. -/
theorem spawnFood_terminates_and_unbounded :
    (∀ (g : Game) (r : RandStream), 0 < g.width - 2 → 0 < g.height - 2 →
        (∃ k, occupies g.snake.body (candAt g r k) = false) →
        ∃ fuel g', spawnFood g r fuel = some g') ∧
    (∀ n : Nat, ∃ (g : Game) (r : RandStream),
        (∃ k, occupies g.snake.body (candAt g r k) = false) ∧
        spawnFood g r n = none ∧ ∃ g', spawnFood g r (n + 1) = some g') := by
  constructor
  · intro g r hw hh ⟨k, hk⟩
    obtain ⟨p, hp⟩ := spawnFoodAux_finds hw hh k 0 (by rw [Nat.zero_add]; exact hk)
    exact ⟨k + 1, _, by rw [spawnFood, hp]; rfl⟩
  · intro n
    refine ⟨stallGame, stallStream n, ⟨n, ?_⟩, ?_, ?_⟩
    · simp [candAt, stallStream, stallGame, occupies]
    · rw [spawnFood, stallStream_stalls n n 0 (by omega)]; rfl
    · obtain ⟨p, hp⟩ := spawnFoodAux_finds (g := stallGame) (r := stallStream n)
        (by decide) (by decide) n 0
        (by rw [Nat.zero_add]; simp [candAt, stallStream, stallGame, occupies])
      exact ⟨_, by rw [spawnFood, hp]; rfl⟩

theorem spawnFood_terminates_and_unbounded_witness :
    (∃ fuel g', spawnFood gameA zeroStream fuel = some g') ∧
    (∃ (g : Game) (r : RandStream),
        (∃ k, occupies g.snake.body (candAt g r k) = false) ∧
        spawnFood g r 2 = none ∧ ∃ g', spawnFood g r 3 = some g') :=
  ⟨spawnFood_terminates_and_unbounded.1 gameA zeroStream (by decide) (by decide)
      ⟨0, by decide⟩,
    spawnFood_terminates_and_unbounded.2 2⟩

lemma gameInit_sound {g g' : Game} {r : RandStream} {fuel : Nat}
    (h : gameInit g r fuel = some g') :
    g'.width = 40 ∧ g'.height = 20 ∧
      g'.snake = { body := [⟨10, 10⟩, ⟨9, 10⟩, ⟨8, 10⟩], direction := ⟨1, 0⟩ } ∧
      g'.score = 0 ∧ g'.gameOver = false ∧ g'.quit = false ∧
      occupies g'.snake.body g'.food = false ∧
      1 ≤ g'.food.x ∧ g'.food.x ≤ 38 ∧ 1 ≤ g'.food.y ∧ g'.food.y ≤ 18 := by
  unfold gameInit at h
  rw [Option.map_eq_some'] at h
  obtain ⟨g2, hg2, rfl⟩ := h
  obtain ⟨hw, hh, hsn, -, -, -, hocc, h1, h2, h3, h4⟩ := spawnFood_sound hg2
  simp only at hw hh hsn hocc h1 h2 h3 h4
  refine ⟨hw, hh, hsn, rfl, rfl, rfl, ?_, ?_, ?_, ?_, ?_⟩
  · show occupies g2.snake.body g2.food = false
    rw [hsn]
    exact hocc
  · show 1 ≤ g2.food.x
    omega
  · show g2.food.x ≤ 38
    omega
  · show 1 ≤ g2.food.y
    omega
  · show g2.food.y ≤ 18
    omega

/-- C9: while `gameOver` is set, the bytes r/R re-run `init()` — zero
score, cleared `gameOver`, the initial 3-segment snake heading +x; while
`gameOver` is clear they leave the state untouched. -/
theorem restart_key_resets (g : Game) (s : Nat × Nat) (r : RandStream)
    (fuel : Nat) :
    (g.gameOver = true →
      handleKey g 114 s r fuel = gameInit g r fuel ∧
      handleKey g 82 s r fuel = gameInit g r fuel ∧
      ∀ g', gameInit g r fuel = some g' →
        g'.score = 0 ∧ g'.gameOver = false ∧
          g'.snake = { body := [⟨10, 10⟩, ⟨9, 10⟩, ⟨8, 10⟩]
                       direction := ⟨1, 0⟩ }) ∧
    (g.gameOver = false →
      handleKey g 114 s r fuel = some g ∧
      handleKey g 82 s r fuel = some g) := by
  constructor
  · intro hov
    refine ⟨by simp [handleKey, hov], by simp [handleKey, hov], ?_⟩
    intro g' hg'
    obtain ⟨-, -, hsn, hsc, hgo, -, -, -, -, -, -⟩ := gameInit_sound hg'
    exact ⟨hsc, hgo, hsn⟩
  · intro hov
    exact ⟨by simp [handleKey, hov], by simp [handleKey, hov]⟩

theorem restart_key_resets_witness :
    (handleKey { gameA with gameOver := true } 114 (0, 0) zeroStream 1 =
        gameInit { gameA with gameOver := true } zeroStream 1 ∧
      handleKey { gameA with gameOver := true } 82 (0, 0) zeroStream 1 =
        gameInit { gameA with gameOver := true } zeroStream 1 ∧
      ∀ g', gameInit { gameA with gameOver := true } zeroStream 1 = some g' →
        g'.score = 0 ∧ g'.gameOver = false ∧
          g'.snake = { body := [⟨10, 10⟩, ⟨9, 10⟩, ⟨8, 10⟩]
                       direction := ⟨1, 0⟩ }) ∧
    (handleKey gameA 114 (0, 0) zeroStream 1 = some gameA ∧
      handleKey gameA 82 (0, 0) zeroStream 1 = some gameA) :=
  ⟨(restart_key_resets { gameA with gameOver := true } (0, 0) zeroStream 1).1
      rfl,
    (restart_key_resets gameA (0, 0) zeroStream 1).2 rfl⟩

lemma mem_of_mem_dropLast {α : Type _} {l : List α} {p : α}
    (h : p ∈ l.dropLast) : p ∈ l :=
  (List.dropLast_sublist l).subset h

lemma update_direction_eq {g g' : Game} {r : RandStream} {fuel : Nat}
    (h : update g r fuel = some g') :
    g'.snake.direction = g.snake.direction := by
  unfold update at h
  split at h
  · injection h with h
    subst h
    rfl
  · split at h
    · exact absurd h (by simp)
    · rename_i hd tl heq
      dsimp only at h
      split at h
      · injection h with h
        subst h
        rfl
      · split at h
        · injection h with h
          subst h
          rfl
        · split at h
          · obtain ⟨-, -, hsn, -⟩ := spawnFood_sound h
            rw [hsn]
          · injection h with h
            subst h
            rfl

lemma inv_changeDirection {g : Game} (hi : Inv g) (dx dy : Int) :
    Inv (changeDirection g dx dy) := by
  unfold changeDirection
  split
  · exact hi
  · exact hi

lemma inv_gameInit {g g' : Game} {r : RandStream} {fuel : Nat}
    (h : gameInit g r fuel = some g') : Inv g' := by
  obtain ⟨hw, hh, hsn, -, -, -, -, h1, h2, h3, h4⟩ := gameInit_sound h
  refine ⟨by rw [hsn]; simp, ?_, ?_⟩
  · intro p hp
    rw [hsn] at hp
    rw [hw, hh]
    simp only [List.mem_cons, List.mem_singleton] at hp
    rcases hp with rfl | rfl | rfl | hp
    · exact ⟨by norm_num, by norm_num, by norm_num, by norm_num⟩
    · exact ⟨by norm_num, by norm_num, by norm_num, by norm_num⟩
    · exact ⟨by norm_num, by norm_num, by norm_num, by norm_num⟩
    · simp at hp
  · unfold interiorCell
    rw [hw, hh]
    refine ⟨h1, by omega, h3, by omega⟩

lemma inv_spawnFood {g g' : Game} {r : RandStream} {fuel : Nat}
    (hi : Inv g) (h : spawnFood g r fuel = some g') : Inv g' := by
  obtain ⟨hw, hh, hsn, -, -, -, -, h1, h2, h3, h4⟩ := spawnFood_sound h
  obtain ⟨hlen, hmem, -⟩ := hi
  refine ⟨by rw [hsn]; exact hlen, ?_, ?_⟩
  · intro p hp
    rw [hsn] at hp
    rw [hw, hh]
    exact hmem p hp
  · unfold interiorCell
    rw [hw, hh]
    exact ⟨h1, h2, h3, h4⟩

lemma inv_update {g g' : Game} {r : RandStream} {fuel : Nat}
    (hi : Inv g) (h : update g r fuel = some g') : Inv g' := by
  obtain ⟨hlen, hmem, hfood⟩ := hi
  by_cases hoq : (g.gameOver || g.quit) = true
  · unfold update at h
    rw [if_pos hoq] at h
    injection h with h
    subst h
    exact ⟨hlen, hmem, hfood⟩
  · cases hbody : g.snake.body with
    | nil =>
      rw [hbody] at hlen
      simp at hlen
    | cons hd tl =>
      simp only [update, hbody] at h
      rw [if_neg hoq] at h
      by_cases hb : ((⟨hd.x + g.snake.direction.x,
            hd.y + g.snake.direction.y⟩ : Point).x ≤ 0 ∨
          g.width - 1 ≤ (⟨hd.x + g.snake.direction.x,
            hd.y + g.snake.direction.y⟩ : Point).x ∨
          (⟨hd.x + g.snake.direction.x,
            hd.y + g.snake.direction.y⟩ : Point).y ≤ 0 ∨
          g.height - 1 ≤ (⟨hd.x + g.snake.direction.x,
            hd.y + g.snake.direction.y⟩ : Point).y)
      · rw [if_pos hb] at h
        injection h with h
        subst h
        exact ⟨hlen, hmem, hfood⟩
      · rw [if_neg hb] at h
        have hin : interiorCell g.width g.height
            ⟨hd.x + g.snake.direction.x, hd.y + g.snake.direction.y⟩ := by
          push_neg at hb
          obtain ⟨b1, b2, b3, b4⟩ := hb
          have c1 : 0 < hd.x + g.snake.direction.x := b1
          have c2 : hd.x + g.snake.direction.x < g.width - 1 := b2
          have c3 : 0 < hd.y + g.snake.direction.y := b3
          have c4 : hd.y + g.snake.direction.y < g.height - 1 := b4
          refine ⟨?_, ?_, ?_, ?_⟩
          · show (1 : Int) ≤ hd.x + g.snake.direction.x
            omega
          · show hd.x + g.snake.direction.x ≤ g.width - 2
            omega
          · show (1 : Int) ≤ hd.y + g.snake.direction.y
            omega
          · show hd.y + g.snake.direction.y ≤ g.height - 2
            omega
        by_cases hocc : occupies (hd :: tl)
            (⟨hd.x + g.snake.direction.x,
              hd.y + g.snake.direction.y⟩ : Point) = true
        · rw [if_pos hocc] at h
          injection h with h
          subst h
          exact ⟨hlen, hmem, hfood⟩
        · rw [if_neg hocc] at h
          by_cases hf : ((⟨hd.x + g.snake.direction.x,
                hd.y + g.snake.direction.y⟩ : Point).x = g.food.x ∧
              (⟨hd.x + g.snake.direction.x,
                hd.y + g.snake.direction.y⟩ : Point).y = g.food.y)
          · rw [if_pos hf] at h
            obtain ⟨hw, hh, hsn, -, -, -, -, h1, h2, h3, h4⟩ :=
              spawnFood_sound h
            simp only at hw hh hsn h1 h2 h3 h4
            refine ⟨?_, ?_, ?_⟩
            · rw [hsn]
              rw [hbody] at hlen
              simp only [List.length_cons] at hlen ⊢
              omega
            · intro p hp
              rw [hsn] at hp
              rw [hw, hh]
              simp only [List.mem_cons] at hp
              rcases hp with rfl | hp
              · exact hin
              · exact hmem p (by rw [hbody]; simpa using hp)
            · unfold interiorCell
              rw [hw, hh]
              exact ⟨h1, h2, h3, h4⟩
          · rw [if_neg hf] at h
            injection h with h
            subst h
            refine ⟨?_, ?_, ?_⟩
            · show 3 ≤ ((⟨hd.x + g.snake.direction.x, hd.y + g.snake.direction.y⟩ : Point) :: hd :: tl).dropLast.length
              rw [List.length_dropLast]
              rw [hbody] at hlen
              simp only [List.length_cons] at hlen ⊢
              omega
            · intro p hp
              have hp2 := mem_of_mem_dropLast hp
              simp only [List.mem_cons] at hp2
              rcases hp2 with rfl | hp2
              · exact hin
              · exact hmem p (by rw [hbody]; simpa using hp2)
            · exact hfood

lemma inv_handleKey {g g' : Game} {k : Nat} {s : Nat × Nat} {r : RandStream}
    {fuel : Nat} (hi : Inv g) (h : handleKey g k s r fuel = some g') :
    Inv g' := by
  unfold handleKey at h
  split_ifs at h with h1 h2 h3 h4 h5 h6 h7 h8 h9
  all_goals
    first
    | (injection h with h; subst h;
       first
       | exact inv_changeDirection hi _ _
       | exact hi)
    | exact inv_gameInit h

lemma inv_reachable {g : Game} (h : Reachable g) : Inv g := by
  induction h with
  | start g0 g r fuel h => exact inv_gameInit h
  | step g g' hr hs ih =>
    cases hs with
    | update r fuel h => exact inv_update ih h
    | key k s r fuel h => exact inv_handleKey ih h
    | spawn r fuel h => exact inv_spawnFood ih h

/-- C10: every state reachable from `init()` keeps at least 3 body
segments with every segment and the food strictly inside the border, so
the head read `snake.body[0]` and the grid writes `board[y][x]` of the
renderer are always in bounds. -/
theorem reachable_state_safe (g : Game) (h : Reachable g) :
    Inv g ∧ g.snake.body ≠ [] ∧
      ∀ p ∈ g.food :: g.snake.body,
        0 ≤ p.x ∧ p.x < g.width ∧ 0 ≤ p.y ∧ p.y < g.height := by
  obtain ⟨hlen, hmem, hfood⟩ := inv_reachable h
  refine ⟨⟨hlen, hmem, hfood⟩, ?_, ?_⟩
  · intro hnil
    rw [hnil] at hlen
    simp at hlen
  · intro p hp
    rcases List.mem_cons.mp hp with rfl | hp
    · obtain ⟨a, b, c, d⟩ := hfood
      exact ⟨by omega, by omega, by omega, by omega⟩
    · obtain ⟨a, b, c, d⟩ := hmem p hp
      exact ⟨by omega, by omega, by omega, by omega⟩

theorem reachable_state_safe_witness :
    Inv gameA ∧ gameA.snake.body ≠ [] ∧
      ∀ p ∈ gameA.food :: gameA.snake.body,
        0 ≤ p.x ∧ p.x < gameA.width ∧ 0 ≤ p.y ∧ p.y < gameA.height :=
  reachable_state_safe gameA
    (Reachable.start blankGame gameA zeroStream 1 (by decide))

lemma unitDir_changeDirection {g : Game} (hu : unitDir g.snake.direction)
    {dx dy : Int} (hreq : unitDir ⟨dx, dy⟩) :
    unitDir (changeDirection g dx dy).snake.direction := by
  unfold changeDirection
  split
  · exact hu
  · exact hreq

lemma unitDir_handleKey {g g' : Game} {k : Nat} {s : Nat × Nat}
    {r : RandStream} {fuel : Nat} (hu : unitDir g.snake.direction)
    (h : handleKey g k s r fuel = some g') : unitDir g'.snake.direction := by
  unfold handleKey at h
  split_ifs at h with h1 h2 h3 h4 h5 h6 h7 h8 h9
  · injection h with h
    subst h
    exact unitDir_changeDirection hu (Or.inr (Or.inr (Or.inr rfl)))
  · injection h with h
    subst h
    exact unitDir_changeDirection hu (Or.inr (Or.inr (Or.inl rfl)))
  · injection h with h
    subst h
    exact unitDir_changeDirection hu (Or.inl rfl)
  · injection h with h
    subst h
    exact unitDir_changeDirection hu (Or.inr (Or.inl rfl))
  · injection h with h
    subst h
    exact hu
  · injection h with h
    subst h
    exact hu
  · injection h with h
    subst h
    exact hu
  · obtain ⟨-, -, hsn, -⟩ := gameInit_sound h
    rw [hsn]
    exact Or.inl rfl
  · injection h with h
    subst h
    exact hu
  · injection h with h
    subst h
    exact hu

lemma unitDir_reachable {g : Game} (h : Reachable g) :
    unitDir g.snake.direction := by
  induction h with
  | start g0 g r fuel h =>
    obtain ⟨-, -, hsn, -⟩ := gameInit_sound h
    rw [hsn]
    exact Or.inl rfl
  | step g g' hr hs ih =>
    cases hs with
    | update r fuel h =>
      rw [update_direction_eq h]
      exact ih
    | key k s r fuel h => exact unitDir_handleKey ih h
    | spawn r fuel h =>
      obtain ⟨-, -, hsn, -⟩ := spawnFood_sound h
      rw [hsn]
      exact ih

/-- Counterexample to C5 as stated: from the freshly initialized state
(direction `(1,0)`), one tick, then the two queued inputs down and left
leave the direction at `(-1,0)` — the exact reverse of the direction the
previous tick used. The rule only checks against the current direction,
so two inputs between ticks can reverse it. -/
theorem direction_reversal_claim_false :
    ¬ (∀ (g g1 : Game) (r : RandStream) (fuel : Nat) (ds : List (Int × Int)),
        Reachable g → g.gameOver = false → g.quit = false →
        update g r fuel = some g1 →
        (applyDirs g1 ds).snake.direction ≠ reverseOf g.snake.direction) := by
  intro hclaim
  have hreach : Reachable gameA :=
    Reachable.start blankGame gameA zeroStream 1 (by decide)
  exact (hclaim gameA gameB zeroStream 1 [(0, 1), (-1, 0)] hreach rfl rfl
    (by decide)) (by decide)

/-- C5 (amended): in any reachable live state, after a tick and at most
one direction-change input, the direction at the next tick is never the
exact reverse of the direction the previous tick used. (As stated the
claim is false: two inputs between ticks can produce the exact reverse,
see the counterexample.) -/
theorem direction_not_reversed_one_input (g g1 : Game) (r : RandStream)
    (fuel : Nat) (dx dy : Int)
    (hreach : Reachable g) (_hov : g.gameOver = false) (_hq : g.quit = false)
    (hup : update g r fuel = some g1) :
    g1.snake.direction ≠ reverseOf g.snake.direction ∧
      (changeDirection g1 dx dy).snake.direction ≠
        reverseOf g.snake.direction := by
  have hu := unitDir_reachable hreach
  have hdir := update_direction_eq hup
  have hne : g.snake.direction ≠ reverseOf g.snake.direction := by
    rcases hu with h | h | h | h <;> rw [h] <;> decide
  constructor
  · rw [hdir]
    exact hne
  · unfold changeDirection
    split
    · rw [hdir]
      exact hne
    · rename_i hcond
      show (⟨dx, dy⟩ : Point) ≠ reverseOf g.snake.direction
      intro heq
      apply hcond
      have hx : dx = -g.snake.direction.x := congrArg Point.x heq
      have hy : dy = -g.snake.direction.y := congrArg Point.y heq
      constructor
      · rw [hdir]
        omega
      · rw [hdir]
        omega

theorem direction_not_reversed_one_input_witness :
    gameB.snake.direction ≠ reverseOf gameA.snake.direction ∧
      (changeDirection gameB 0 1).snake.direction ≠
        reverseOf gameA.snake.direction :=
  direction_not_reversed_one_input gameA gameB zeroStream 1 0 1
    (Reachable.start blankGame gameA zeroStream 1 (by decide)) rfl rfl
    (by decide)

end GSnake
